import Mathlib

/-!
Shallow embedding of the wedding-backend event aggregate.

Sources:
* `src/models/Event.js` — the mongoose event schema, its pre-save invite-code
  hook and the `addMember` / `removeMember` / `isMember` document methods.
* `src/routes/events.js` — the route handlers for create, join, member
  permission update, guest CRUD, leave and soft delete.
* `src/unnamed/part_001` — the event-member access-gate middleware
  (`requireOwner`, `requireOwnerOrAdmin`, `requireCollaborator`).

Modelling conventions: Mongo ObjectIds are strings (so `.toString()`
comparisons on ids are string equality), dates are `Nat` tick counts, the
document store is a `List Event` and `findOne(filter)` is `List.find?` with
the filter's predicate, and a route handler is a function from the store and
the request parameters to a result in `Except String _` (the `String` is the
handler's error message) paired with the store after any `save()`.
-/

namespace WeddingBackend

/-- A member subdocument of the event schema (`src/models/Event.js` lines
34-54).  The schema declares `role` with enum bride/groom/family/friend/guest
and `permissions` with enum admin/collaborator/pending_approval; both are
kept as raw strings here and the enums are the `memberValid` predicate, which
is what mongoose checks at `save()` time. -/
structure Member where
  user : String
  role : String
  permissions : String
  joinedAt : Nat
deriving DecidableEq, Repr

/-- The `settings` subdocument (`src/models/Event.js` lines 73-102). -/
structure Settings where
  budget : Int
  guestPhotoUploads : Bool
  emailNotifications : Bool
  guestListAccess : Bool
  publicGallery : Bool
  budgetSharing : Bool
  rsvpReminders : Bool
deriving DecidableEq, Repr

/-- Schema defaults of the `settings` subdocument. -/
def defaultSettings : Settings :=
  { budget := 0
    guestPhotoUploads := true
    emailNotifications := true
    guestListAccess := false
    publicGallery := true
    budgetSharing := false
    rsvpReminders := true }

/-- An expense subdocument (`src/models/Event.js` lines 104-121). -/
structure Expense where
  category : String
  description : String
  budgeted : Int
  actual : Int
  vendor : String
  date : Nat
  status : String
  createdBy : String
  createdAt : Nat
  updatedAt : Nat
deriving DecidableEq, Repr

/-- A guest subdocument (`src/models/Event.js` lines 123-139). -/
structure Guest where
  name : String
  relation : String
  dietary : String
  rsvp : String
  email : String
  phone : String
  createdBy : String
  createdAt : Nat
  updatedAt : Nat
deriving DecidableEq, Repr, Inhabited

/-- A seating guest entry, used both in `seating.guestPool` and inside
tables (`src/models/Event.js` lines 143-150 and 160-167). -/
structure SeatGuest where
  id : String
  name : String
  isPlaceholder : Bool
  tableId : Option String
  relation : String
  dietary : String
deriving DecidableEq, Repr

/-- A table inside a seating table group (`src/models/Event.js` lines
155-168). -/
structure SeatTable where
  id : String
  label : String
  capacity : Int
  groupId : String
  guests : List SeatGuest
deriving DecidableEq, Repr

/-- A seating table group (`src/models/Event.js` lines 151-169). -/
structure TableGroup where
  id : String
  name : String
  color : String
  tables : List SeatTable
deriving DecidableEq, Repr

/-- The `seating` subdocument (`src/models/Event.js` lines 141-171). -/
structure Seating where
  totalGuests : Int
  guestPool : List SeatGuest
  tableGroups : List TableGroup
  lastUpdated : Nat
deriving DecidableEq, Repr

/-- Schema defaults of the `seating` subdocument. -/
def emptySeating (now : Nat) : Seating :=
  { totalGuests := 0, guestPool := [], tableGroups := [], lastUpdated := now }

/-- The event document (`src/models/Event.js` lines 3-172).  `id` is the
Mongo `_id`; `inviteCode` is optional because the schema marks it
`required: false` (it is generated in the pre-save hook). -/
structure Event where
  id : String
  name : String
  description : String
  eventType : String
  eventDate : Nat
  location : String
  createdBy : String
  members : List Member
  inviteCode : Option String
  isActive : Bool
  createdAt : Nat
  updatedAt : Nat
  settings : Settings
  expenses : List Expense
  guests : List Guest
  seating : Seating
deriving DecidableEq, Repr

/-- The `members.permissions` enum of the schema (`src/models/Event.js`
lines 45-49).  Note it does not contain `"owner"`. -/
def permissionsEnum : List String := ["admin", "collaborator", "pending_approval"]

/-- The `members.role` enum of the schema (`src/models/Event.js` lines
40-44). -/
def roleEnum : List String := ["bride", "groom", "family", "friend", "guest"]

/-- Mongoose enum validation of one member subdocument, run at `save()`. -/
def memberValid (m : Member) : Bool :=
  permissionsEnum.contains m.permissions && roleEnum.contains m.role

/-- Mongoose enum validation of the whole members array, run at `save()`. -/
def membersValid (ms : List Member) : Bool := ms.all memberValid

/-- `eventSchema.methods.isMember` (`src/models/Event.js` lines 236-240). -/
def Event.isMember (e : Event) (userId : String) : Bool :=
  e.members.any (fun m => m.user == userId)

/-- Number of membership entries an event holds for one user id. -/
def countMemberships (e : Event) (userId : String) : Nat :=
  (e.members.filter (fun m => m.user == userId)).length

/-- Number of members of an event holding a given permissions value. -/
def countWithPerm (e : Event) (p : String) : Nat :=
  (e.members.filter (fun m => m.permissions == p)).length

/-- The permissions of a user's membership entry, if any. -/
def memberPerm (e : Event) (userId : String) : Option String :=
  (e.members.find? (fun m => m.user == userId)).map (fun m => m.permissions)

/-- The raw object `addMember` pushes onto `this.members`
(`src/models/Event.js` lines 217-222).  Its keys are `user`, `role`,
`permission` (singular!) and `joinedAt`; the member schema's paths are
`user`, `role`, `permissions` (plural) and `joinedAt`. -/
structure RawPushedMember where
  user : String
  role : String
  permission : String
  joinedAt : Nat
deriving DecidableEq, Repr

/-- Mongoose's strict-mode cast of the pushed object into the member schema
(`src/models/Event.js` lines 34-54): the non-schema key `permission` is
dropped, and the absent schema path `permissions` receives its declared
default `"pending_approval"` (lines 45-49). -/
def castPushedMember (r : RawPushedMember) : Member :=
  { user := r.user
    role := r.role
    permissions := "pending_approval"
    joinedAt := r.joinedAt }

/-- `eventSchema.methods.addMember` (`src/models/Event.js` lines 211-226):
returns the updated event and the boolean the method returns.  The JS
defaults are `role = "guest"`, `permission = "pending_approval"`. -/
def Event.addMember (e : Event) (userId : String) (role : String)
    (permission : String) (now : Nat) : Event × Bool :=
  if e.isMember userId then (e, false)
  else
    ({ e with members :=
        e.members ++ [castPushedMember ⟨userId, role, permission, now⟩] },
     true)

/-- `eventSchema.methods.removeMember` (`src/models/Event.js` lines
229-233): keeps exactly the members whose user id differs. -/
def Event.removeMember (e : Event) (userId : String) : Event :=
  { e with members := e.members.filter (fun m => m.user != userId) }

/-! ### Invite-code generation (`src/models/Event.js` lines 174-208) -/

/-- The alphabet of `generateInviteCode` (`src/models/Event.js` line 202). -/
def inviteChars : List Char :=
  ['A', 'B', 'C', 'D', 'E', 'F', 'G', 'H', 'I', 'J', 'K', 'L', 'M',
   'N', 'O', 'P', 'Q', 'R', 'S', 'T', 'U', 'V', 'W', 'X', 'Y', 'Z',
   '0', '1', '2', '3', '4', '5', '6', '7', '8', '9']

/-- `eventSchema.methods.generateInviteCode` (`src/models/Event.js` lines
201-208): eight characters, each `chars.charAt(Math.floor(Math.random() *
chars.length))`.  The random source is modelled as a stream of draws in
`Fin 36`, which is exactly the range of `Math.floor(Math.random() * 36)`. -/
def generateInviteCode (rand : Nat → Fin 36) : String :=
  String.mk ((List.range 8).map (fun i => inviteChars.getD (rand i) 'A'))

/-- The candidate produced on the `i`-th iteration of the pre-save loop:
each call to `generateInviteCode` consumes eight fresh draws. -/
def candidateCode (rand : Nat → Fin 36) (i : Nat) : String :=
  generateInviteCode (fun j => rand (8 * i + j))

/-- The uniqueness probe of the pre-save hook (`src/models/Event.js` line
183): `this.constructor.findOne({ inviteCode })` — note the filter has no
`isActive` clause, so soft-deleted events are probed too. -/
def codeTaken (store : List Event) (c : String) : Bool :=
  store.any (fun ev => ev.inviteCode == some c)

/-- The `while (!isUnique)` loop of the pre-save hook (`src/models/Event.js`
lines 181-187), with explicit fuel since the JS loop is unbounded:
on iteration `i` draw a candidate and keep it unless some event in the
store already holds it. -/
def findUniqueCode (store : List Event) (rand : Nat → Fin 36) :
    Nat → Nat → Option String
  | 0, _ => none
  | fuel + 1, i =>
      let c := candidateCode rand i
      if codeTaken store c then findUniqueCode store rand fuel (i + 1)
      else some c

/-- The two pre-save hooks composed (`src/models/Event.js` lines 175-198):
generate an invite code only when the document is new and holds none, then
refresh `updatedAt`.  `none` models the (practically unreachable) case of
the fuel running out while every candidate collides. -/
def preSave (store : List Event) (e : Event) (isNew : Bool)
    (rand : Nat → Fin 36) (fuel : Nat) (now : Nat) : Option Event :=
  if isNew && e.inviteCode == none then
    match findUniqueCode store rand fuel 0 with
    | none => none
    | some c => some { e with inviteCode := some c, updatedAt := now }
  else some { e with updatedAt := now }

/-! ### Store queries (`Event.findOne` / `Event.find` filters used by the
route handlers of `src/routes/events.js`) -/

/-- Direct store lookup by `_id` only, with no `isActive` or membership
filter: the store primitive (`Event.findById`).  No route of
`src/routes/events.js` uses it unfiltered; it models raw audit access to
the document store. -/
def findById (store : List Event) (eventId : String) : Option Event :=
  store.find? (fun ev => ev.id == eventId)

/-- `Event.findOne({ _id, isActive: true })` — the filter of the member
permission update route (`src/routes/events.js` line 591). -/
def findActiveById (store : List Event) (eventId : String) : Option Event :=
  store.find? (fun ev => ev.id == eventId && ev.isActive)

/-- `Event.findOne({ _id, "members.user": userId, isActive: true })` — the
member-scoped detail/mutation filter (`src/routes/events.js` lines 248-252,
454, 510, 552, 731-735 and elsewhere). -/
def findMemberEvent (store : List Event) (eventId userId : String) :
    Option Event :=
  store.find? (fun ev => ev.id == eventId && ev.isMember userId && ev.isActive)

/-- `Event.findOne({ _id, createdBy: userId, isActive: true })` — the
creator-scoped filter of update/settings/delete (`src/routes/events.js`
lines 673-677, 797-801, 883-887). -/
def findCreatorEvent (store : List Event) (eventId userId : String) :
    Option Event :=
  store.find? (fun ev =>
    ev.id == eventId && ev.createdBy == userId && ev.isActive)

/-- `inviteCode.toUpperCase()` (`src/routes/events.js` line 155):
character-wise upper-casing. -/
def toUpperStr (s : String) : String := String.mk (s.data.map Char.toUpper)

/-- `Event.findOne({ inviteCode: inviteCode.toUpperCase(), isActive: true })`
— the join lookup (`src/routes/events.js` lines 154-157). -/
def findByInviteCode (store : List Event) (code : String) : Option Event :=
  store.find? (fun ev => ev.inviteCode == some (toUpperStr code) && ev.isActive)

/-- `Event.find({ "members.user": userId, isActive: true })` — the
member-scoped event list (`src/routes/events.js` lines 219-222), before its
sort by `createdAt`. -/
def myEvents (store : List Event) (userId : String) : List Event :=
  store.filter (fun ev => ev.isMember userId && ev.isActive)

/-- `event.save()` writing the mutated document back: every stored document
with the same `_id` is replaced. -/
def saveToStore (store : List Event) (e : Event) : List Event :=
  store.map (fun ev => if ev.id == e.id then e else ev)

/-! ### Route handlers (`src/routes/events.js`) -/

/-- The event built by `POST /create` (`src/routes/events.js` lines 88-101):
a single inline member, the creator, with role bride/groom by gender and
`permissions: "admin"`.  All fields the handler does not set take their
schema defaults (`isActive: true`, empty lists, default settings); the
invite code is still absent — it is filled in by `preSave`. -/
def createEvent (id name description eventType : String) (eventDate : Nat)
    (location : String) (userId userGender : String) (now : Nat) : Event :=
  { id := id
    name := name
    description := description
    eventType := eventType
    eventDate := eventDate
    location := location
    createdBy := userId
    members := [{ user := userId
                  role := if userGender == "female" then "bride" else "groom"
                  permissions := "admin"
                  joinedAt := now }]
    inviteCode := none
    isActive := true
    createdAt := now
    updatedAt := now
    settings := defaultSettings
    expenses := []
    guests := []
    seating := emptySeating now }

/-- `POST /join` (`src/routes/events.js` lines 150-201): look the code up
among active events; 404 when none matches; when the user is already a
member answer success with the event as found (no mutation, no save);
otherwise `addMember(userId, "guest")` (the permission argument defaults to
`"pending_approval"`), 409 when `addMember` reports failure, else save.
Returns the handler result and the store after any save. -/
def joinRoute (store : List Event) (inviteCode userId : String) (now : Nat) :
    Except String Event × List Event :=
  match findByInviteCode store inviteCode with
  | none => (.error "Invalid invite code or event not found", store)
  | some e =>
      if e.isMember userId then (.ok e, store)
      else
        let (e', added) := e.addMember userId "guest" "pending_approval" now
        if added then (.ok e', saveToStore store e')
        else (.error "Unable to join event", store)

/-- The member-permission mutation of `PUT /:eventId/members/:userId/:perms`
(`src/routes/events.js` lines 612-616): every member whose user id equals
the target id gets `permissions := perms`, with no check on the acting
user, on the target's current permission or on the new value. -/
def setPermission (e : Event) (userId perms : String) : Event :=
  { e with members := e.members.map (fun m =>
      if m.user == userId then { m with permissions := perms } else m) }

/-- `PUT /:eventId/members/:userId/:perms` (`src/routes/events.js` lines
579-625): find the event by id among active events (no membership or
permission requirement on the actor), apply `setPermission`, save.  The
save runs mongoose validation; an invalid `permissions` value makes
`save()` throw, which the catch block maps to the 500 response. -/
def setPermissionRoute (store : List Event) (eventId userId perms : String) :
    Except String Event × List Event :=
  match findActiveById store eventId with
  | none => (.error "Event not found or access denied", store)
  | some e =>
      let e' := setPermission e userId perms
      if membersValid e'.members then (.ok e', saveToStore store e')
      else (.error "Server error updating member", store)

/-- `DELETE /:eventId/leave` (`src/routes/events.js` lines 726-767): find
the event the user is a member of; 400 when the user is the creator
(`event.createdBy.toString() === userId`), telling them to delete the event
instead; otherwise `removeMember` and save. -/
def leaveRoute (store : List Event) (eventId userId : String) :
    Except String Event × List Event :=
  match findMemberEvent store eventId userId with
  | none => (.error "Event not found or you are not a member", store)
  | some e =>
      if e.createdBy == userId then
        (.error
          "Event creator cannot leave the event. Please delete the event instead.",
         store)
      else
        let e' := e.removeMember userId
        (.ok e', saveToStore store e')

/-- `DELETE /:eventId` (`src/routes/events.js` lines 877-911): find the
event by id, creator and `isActive`; soft delete by setting
`isActive = false` and saving — nothing else on the document is touched. -/
def softDeleteRoute (store : List Event) (eventId userId : String) :
    Except String Event × List Event :=
  match findCreatorEvent store eventId userId with
  | none =>
      (.error "Event not found or you don't have permission to delete", store)
  | some e =>
      let e' := { e with isActive := false }
      (.ok e', saveToStore store e')

/-! ### Guest index parsing and CRUD (`src/routes/events.js` lines 488-576) -/

/-- Value of a list of decimal digit characters. -/
def digitsVal (ds : List Char) : Nat :=
  ds.foldl (fun acc c => 10 * acc + (c.toNat - '0'.toNat)) 0

/-- JavaScript `parseInt(s, 10)`: skip leading whitespace, take an optional
sign, then the maximal run of decimal digits; `NaN` (here `none`) when no
digit follows. -/
def parseIntJS (s : String) : Option Int :=
  let cs := s.data.dropWhile Char.isWhitespace
  match cs with
  | '-' :: rest =>
      let ds := rest.takeWhile Char.isDigit
      if ds.isEmpty then none else some (-(digitsVal ds : Int))
  | '+' :: rest =>
      let ds := rest.takeWhile Char.isDigit
      if ds.isEmpty then none else some (digitsVal ds : Int)
  | _ =>
      let ds := cs.takeWhile Char.isDigit
      if ds.isEmpty then none else some (digitsVal ds : Int)

/-- The index guard shared by the guest update and delete handlers
(`src/routes/events.js` lines 515-518 and 557-560):
`Number.isNaN(index) || index < 0 || index >= event.guests.length`. -/
def badGuestIndex (guestIndex : String) (len : Nat) : Bool :=
  match parseIntJS guestIndex with
  | none => true
  | some i => i < 0 || (len : Int) ≤ i

/-- The optional body fields of the guest update route
(`src/routes/events.js` lines 491-498); a `none` field was not supplied.
The handler copies every defined body key onto the guest subdocument; keys
outside the guest schema are discarded by mongoose and are outside this
model. -/
structure GuestUpdates where
  name : Option String
  relation : Option String
  dietary : Option String
  rsvp : Option String
  email : Option String
  phone : Option String
deriving DecidableEq, Repr

/-- The field-merge loop of the guest update handler (`src/routes/events.js`
lines 520-526): each supplied field overwrites the guest's, then
`updatedAt` is refreshed. -/
def applyGuestUpdates (g : Guest) (u : GuestUpdates) (now : Nat) : Guest :=
  { g with
    name := u.name.getD g.name
    relation := u.relation.getD g.relation
    dietary := u.dietary.getD g.dietary
    rsvp := u.rsvp.getD g.rsvp
    email := u.email.getD g.email
    phone := u.phone.getD g.phone
    updatedAt := now }

/-- The event after the guest-update handler's in-place mutation of the
guest at position `n` (`src/routes/events.js` lines 520-526). -/
def updatedGuestEvent (e : Event) (n : Nat) (u : GuestUpdates) (now : Nat) :
    Event :=
  { e with guests := e.guests.set n (applyGuestUpdates (e.guests.getD n default) u now) }

/-- The event after the guest-delete handler's `splice(index, 1)`
(`src/routes/events.js` line 562). -/
def erasedGuestEvent (e : Event) (n : Nat) : Event :=
  { e with guests := e.guests.eraseIdx n }

/-- `PUT /:eventId/guests/:guestIndex` (`src/routes/events.js` lines
488-541): member-scoped lookup, 400 on an invalid index with the document
untouched, otherwise merge the supplied fields into the guest at that
position and save. -/
def updateGuestRoute (store : List Event) (eventId userId guestIndex : String)
    (u : GuestUpdates) (now : Nat) : Except String Event × List Event :=
  match findMemberEvent store eventId userId with
  | none => (.error "Event not found or access denied", store)
  | some e =>
      match parseIntJS guestIndex with
      | none => (.error "Invalid guest index", store)
      | some i =>
          if i < 0 || (e.guests.length : Int) ≤ i then
            (.error "Invalid guest index", store)
          else
            let e' := updatedGuestEvent e i.toNat u now
            (.ok e', saveToStore store e')

/-- `DELETE /:eventId/guests/:guestIndex` (`src/routes/events.js` lines
544-576): member-scoped lookup, 400 on an invalid index with the document
untouched, otherwise `splice(index, 1)` — removal of exactly the guest at
that position — and save. -/
def deleteGuestRoute (store : List Event) (eventId userId guestIndex : String) :
    Except String Event × List Event :=
  match findMemberEvent store eventId userId with
  | none => (.error "Event not found or access denied", store)
  | some e =>
      match parseIntJS guestIndex with
      | none => (.error "Invalid guest index", store)
      | some i =>
          if i < 0 || (e.guests.length : Int) ≤ i then
            (.error "Invalid guest index", store)
          else
            let e' := erasedGuestEvent e i.toNat
            (.ok e', saveToStore store e')

/-! ### Access-gate middleware (`src/unnamed/part_001`) -/

/-- `requireOwner` (`src/unnamed/part_001` lines 44-52): `true` means the
middleware calls `next()`, `false` means it answers 403.  The argument is
`req.userMember`, the acting user's membership entry attached by
`requireEventMember` (`none` when absent). -/
def requireOwner (userMember : Option Member) : Bool :=
  match userMember with
  | none => false
  | some m => m.permissions == "owner"

/-- `requireOwnerOrAdmin` (`src/unnamed/part_001` lines 57-69). -/
def requireOwnerOrAdmin (userMember : Option Member) : Bool :=
  match userMember with
  | none => false
  | some m => m.permissions == "owner" || m.permissions == "admin"

/-- `requireCollaborator` (`src/unnamed/part_001` lines 74-82): denies when
the membership is absent or still `pending_approval`. -/
def requireCollaborator (userMember : Option Member) : Bool :=
  match userMember with
  | none => false
  | some m => !(m.permissions == "pending_approval")

/-! ## Sample values used by witnesses and counterexamples -/

/-- The event `POST /create` builds for creator `"alice"` (gender female)
before the pre-save hook runs. -/
def sampleCreated : Event :=
  createEvent "E1" "Alice Wedding" "" "wedding" 100 "Town Hall" "alice" "female" 0

/-! ## Theorems -/

/-- C6: the access gate is a pure function of the membership snapshot: an
absent membership is denied by all three levels; `requireOwner` allows
exactly the `owner` permission, `requireOwnerOrAdmin` exactly `owner` or
`admin`, and `requireCollaborator` exactly the permissions other than
`pending_approval`. -/
theorem C6_access_gate_pure :
    (requireOwner none = false ∧ requireOwnerOrAdmin none = false ∧
      requireCollaborator none = false) ∧
    (∀ m : Member,
      (requireOwner (some m) = true ↔ m.permissions = "owner") ∧
      (requireOwnerOrAdmin (some m) = true ↔
        (m.permissions = "owner" ∨ m.permissions = "admin")) ∧
      (requireCollaborator (some m) = true ↔
        m.permissions ≠ "pending_approval")) := by
  refine ⟨⟨rfl, rfl, rfl⟩, fun m => ⟨?_, ?_, ?_⟩⟩ <;>
    simp [requireOwner, requireOwnerOrAdmin, requireCollaborator]

/-- C9: whatever permission argument `addMember` receives, the stored member
carries the schema default `pending_approval`, because the pushed object
spells the key `permission` (singular), which is not a member-schema path;
only the inline members array built at event creation assigns a different
permissions value (the creator's `admin`). -/
theorem C9_addMember_permission_argument_ignored :
    ∀ (e : Event) (uid role perm : String) (now : Nat),
      e.isMember uid = false →
      (e.addMember uid role perm now).2 = true ∧
      (e.addMember uid role perm now).1.members =
        e.members ++
          [{ user := uid, role := role, permissions := "pending_approval",
             joinedAt := now }] ∧
      (∀ (id nm ds ty : String) (dt : Nat) (loc cu g : String) (t : Nat),
        (createEvent id nm ds ty dt loc cu g t).members.map
          (fun m => m.permissions) = ["admin"]) := by
  intro e uid role perm now h
  refine ⟨?_, ?_, ?_⟩
  · simp [Event.addMember, h]
  · simp [Event.addMember, h, castPushedMember]
  · intro id nm ds ty dt loc cu g t
    simp [createEvent]

/-- Witness for C9: on a concrete event without member `"bob"`, adding
`"bob"` with the (non-default) permission argument `"admin"` still stores
`pending_approval`. -/
theorem C9_witness :
    sampleCreated.isMember "bob" = false ∧
    (sampleCreated.addMember "bob" "guest" "admin" 5).1.members =
      sampleCreated.members ++
        [{ user := "bob", role := "guest", permissions := "pending_approval",
           joinedAt := 5 }] :=
  ⟨by decide,
   (C9_addMember_permission_argument_ignored sampleCreated "bob" "guest"
      "admin" 5 (by decide)).2.1⟩

/-- C1 counterexample: the event built by `POST /create` is active yet has
zero members with `permissions == "owner"` — the creator is stored with
`"admin"` and the schema enum does not even contain `"owner"` — so the
"exactly one owner member" invariant is false already at creation. -/
theorem C1_counterexample_no_owner_member :
    sampleCreated.isActive = true ∧
    countWithPerm sampleCreated "owner" ≠ 1 := by
  constructor
  · rfl
  · decide

/-- C1 amended: at creation exactly one member — the creator — has
`permissions == "admin"` and none has `"owner"`; moreover no event whose
members pass the schema's enum validation (which every successful `save()`
enforces) can ever hold a member with `permissions == "owner"`, since the
enum is admin/collaborator/pending_approval. -/
theorem C1_amended_single_admin_never_owner :
    (∀ (id nm ds ty : String) (dt : Nat) (loc uid g : String) (now : Nat),
      (createEvent id nm ds ty dt loc uid g now).isActive = true ∧
      countWithPerm (createEvent id nm ds ty dt loc uid g now) "admin" = 1 ∧
      countWithPerm (createEvent id nm ds ty dt loc uid g now) "owner" = 0 ∧
      (createEvent id nm ds ty dt loc uid g now).members.length = 1) ∧
    (∀ e : Event, membersValid e.members = true →
      countWithPerm e "owner" = 0) := by
  constructor
  · intro id nm ds ty dt loc uid g now
    refine ⟨rfl, ?_, ?_, rfl⟩ <;> simp [createEvent, countWithPerm]
  · intro e h
    have h' : ∀ m ∈ e.members, memberValid m = true := by
      simpa [membersValid, List.all_eq_true] using h
    simp only [countWithPerm, List.length_eq_zero]
    rw [List.filter_eq_nil_iff]
    intro m hm
    have hv := h' m hm
    simp only [memberValid, Bool.and_eq_true, permissionsEnum,
      List.contains_eq_any_beq, List.any_eq_true, beq_iff_eq] at hv
    obtain ⟨⟨x, hx, hperm⟩, -⟩ := hv
    fin_cases hx <;> simp [hperm]

/-- Witness for C1's amended statement: the created sample event passes
member validation and indeed has no owner-permission member. -/
theorem C1_amended_witness :
    membersValid sampleCreated.members = true ∧
    countWithPerm sampleCreated "owner" = 0 :=
  ⟨by decide, C1_amended_single_admin_never_owner.2 sampleCreated (by decide)⟩

/-- The sample event as stored after creation and one join: it carries an
invite code and the pending member `"bob"` next to the creator. -/
def sampleStoredEvent : Event :=
  { sampleCreated with
    inviteCode := some "ABCD1234"
    members := sampleCreated.members ++
      [{ user := "bob", role := "guest", permissions := "pending_approval",
         joinedAt := 1 }] }

/-- C3: joining with an invite code while already a member of the matching
event is a no-op success: the handler answers the event exactly as found,
performs no mutation and no save, so the membership state is unchanged and
no duplicate membership entry for the (event, user) pair can appear. -/
theorem C3_join_already_member_noop :
    ∀ (store : List Event) (code uid : String) (now : Nat) (e : Event),
      findByInviteCode store code = some e →
      e.isMember uid = true →
      joinRoute store code uid now = (Except.ok e, store) ∧
      countMemberships e uid =
        countMemberships ((joinRoute store code uid now).1.toOption.getD e) uid := by
  intro store code uid now e hfind hmem
  have hroute : joinRoute store code uid now = (Except.ok e, store) := by
    simp [joinRoute, hfind, hmem]
  exact ⟨hroute, by rw [hroute]; rfl⟩

/-- Witness for C3: `"bob"` is already a member of the stored sample event;
joining again with its code (lower-cased, exercising the upper-casing of
the lookup) returns the event untouched and leaves the store unchanged. -/
theorem C3_witness :
    findByInviteCode [sampleStoredEvent] "abcd1234" = some sampleStoredEvent ∧
    joinRoute [sampleStoredEvent] "abcd1234" "bob" 7 =
      (Except.ok sampleStoredEvent, [sampleStoredEvent]) :=
  ⟨by decide,
   (C3_join_already_member_noop [sampleStoredEvent] "abcd1234" "bob" 7
      sampleStoredEvent (by decide) (by decide)).1⟩

/-- Lengths of the two complementary filters of a list add up. -/
theorem length_filter_not_add_length_filter (l : List α) (p : α → Bool) :
    (l.filter (fun x => !p x)).length + (l.filter p).length = l.length := by
  induction l with
  | nil => rfl
  | cons x xs ih => by_cases h : p x <;> simp [List.filter_cons, h] <;> omega

/-- C4: a member who is not the creator can leave, and the removal keeps
exactly the other members, in order; the creator's leave attempt is
answered with the delete-the-event error and neither the members list nor
the store changes. -/
theorem C4_leave_non_owner_only :
    ∀ (store : List Event) (eventId uid : String) (e : Event),
      findMemberEvent store eventId uid = some e →
      (e.createdBy = uid →
        leaveRoute store eventId uid =
          (Except.error
            "Event creator cannot leave the event. Please delete the event instead.",
           store)) ∧
      (e.createdBy ≠ uid →
        leaveRoute store eventId uid =
          (Except.ok (e.removeMember uid),
           saveToStore store (e.removeMember uid)) ∧
        (e.removeMember uid).members =
          e.members.filter (fun m => m.user != uid) ∧
        (countMemberships e uid = 1 →
          (e.removeMember uid).members.length + 1 = e.members.length) ∧
        (∀ m ∈ e.members, m.user ≠ uid → m ∈ (e.removeMember uid).members) ∧
        (∀ m ∈ (e.removeMember uid).members, m.user ≠ uid)) := by
  intro store eventId uid e hfind
  constructor
  · intro hcreator
    simp [leaveRoute, hfind, hcreator]
  · intro hnc
    refine ⟨by simp [leaveRoute, hfind, hnc], rfl, ?_, ?_, ?_⟩
    · intro hcount
      have hsum := length_filter_not_add_length_filter e.members
        (fun m => m.user == uid)
      have hrw : (e.removeMember uid).members =
          e.members.filter (fun m => !(m.user == uid)) := rfl
      rw [hrw]
      rw [countMemberships] at hcount
      omega
    · intro m hm hne
      simp [Event.removeMember, List.mem_filter, hm, hne]
    · intro m hm
      have := (List.mem_filter.mp hm).2
      simpa using this

/-- Witness for C4: in the stored sample event, `"bob"` (not the creator)
leaves successfully, and the result drops exactly bob's entry. -/
theorem C4_witness :
    findMemberEvent [sampleStoredEvent] "E1" "bob" = some sampleStoredEvent ∧
    leaveRoute [sampleStoredEvent] "E1" "bob" =
      (Except.ok (sampleStoredEvent.removeMember "bob"),
       saveToStore [sampleStoredEvent] (sampleStoredEvent.removeMember "bob")) :=
  ⟨by decide,
   ((C4_leave_non_owner_only [sampleStoredEvent] "E1" "bob" sampleStoredEvent
      (by decide)).2 (by decide)).1⟩

/-- If every member is schema-valid and the new permissions value is in the
enum, the permission rewrite of `setPermission` keeps every member valid. -/
theorem membersValid_setPerm_of_contains (ms : List Member) (uid perms : String)
    (hv : ms.all memberValid = true)
    (hp : permissionsEnum.contains perms = true) :
    (ms.map (fun m =>
      if m.user == uid then { m with permissions := perms } else m)).all
      memberValid = true := by
  rw [List.all_eq_true] at hv ⊢
  intro x hx
  rw [List.mem_map] at hx
  obtain ⟨m, hm, rfl⟩ := hx
  have hvm := hv m hm
  by_cases h : m.user == uid
  · simp only [h, if_true]
    simp only [memberValid, Bool.and_eq_true] at hvm ⊢
    exact ⟨hp, hvm.2⟩
  · simp only [h]
    simpa using hvm

/-- Conversely, when some member matches the target id, validity of the
rewritten members list forces the new permissions value into the enum. -/
theorem contains_of_membersValid_setPerm (ms : List Member) (uid perms : String)
    (hmem : ms.any (fun m => m.user == uid) = true)
    (hall : (ms.map (fun m =>
      if m.user == uid then { m with permissions := perms } else m)).all
      memberValid = true) :
    permissionsEnum.contains perms = true := by
  rw [List.any_eq_true] at hmem
  obtain ⟨m, hm, hmu⟩ := hmem
  rw [List.all_eq_true] at hall
  have hx := hall _ (List.mem_map_of_mem _ hm)
  simp only [hmu, if_true, memberValid, Bool.and_eq_true] at hx
  exact hx.1

/-- An active event whose two members are a collaborator and a pending
member: nobody in it holds admin (or the impossible owner) permissions. -/
def sampleNoAdmins : Event :=
  { sampleCreated with
    inviteCode := some "ZZZZ9999"
    members :=
      [{ user := "alice", role := "bride", permissions := "collaborator",
         joinedAt := 0 },
       { user := "bob", role := "guest", permissions := "pending_approval",
         joinedAt := 1 }] }

/-- C2 counterexample: in an active event whose members are a collaborator
and a pending member — so no possible actor holds owner or admin — the
permission-update route still promotes the pending member to `admin` and
succeeds, where the claim requires a Forbidden failure (newPerm == admin
demands an owner actor, and the actor must at least be owner or admin). -/
theorem C2_counterexample_no_forbidden :
    countWithPerm sampleNoAdmins "owner" = 0 ∧
    countWithPerm sampleNoAdmins "admin" = 0 ∧
    memberPerm sampleNoAdmins "bob" = some "pending_approval" ∧
    (setPermissionRoute [sampleNoAdmins] "E1" "bob" "admin").1 =
      Except.ok (setPermission sampleNoAdmins "bob" "admin") ∧
    memberPerm (setPermission sampleNoAdmins "bob" "admin") "bob" =
      some "admin" := by
  refine ⟨by decide, by decide, by decide, rfl, by decide⟩

/-- C2 amended: the permission-update route authorizes nothing: for any
target member of an active event it rewrites that member's permissions to
the requested value whoever the actor is, and the save succeeds exactly
when the new value lies in the schema enum (admin, collaborator,
pending_approval); requesting `owner` therefore always fails on an
existing target, but as the handler's 500 server error from mongoose
validation, never as a Forbidden authorization error. -/
theorem C2_amended_route_authorizes_nothing :
    ∀ (e : Event) (uid perms : String),
      e.isActive = true →
      membersValid e.members = true →
      e.isMember uid = true →
      ((setPermissionRoute [e] e.id uid perms).1 =
          Except.ok (setPermission e uid perms) ↔
        permissionsEnum.contains perms = true) ∧
      (perms = "owner" →
        (setPermissionRoute [e] e.id uid perms).1 =
          Except.error "Server error updating member") := by
  intro e uid perms hactive hvalid hmem
  have hfind : findActiveById [e] e.id = some e := by
    simp [findActiveById, hactive]
  have hiff : membersValid (setPermission e uid perms).members = true ↔
      permissionsEnum.contains perms = true := by
    constructor
    · intro h
      exact contains_of_membersValid_setPerm e.members uid perms hmem h
    · intro h
      exact membersValid_setPerm_of_contains e.members uid perms hvalid h
  constructor
  · by_cases hp : permissionsEnum.contains perms = true
    · simp only [setPermissionRoute, hfind, hiff.mpr hp, if_true]
      exact ⟨fun _ => hp, fun _ => trivial⟩
    · have hnv : membersValid (setPermission e uid perms).members = false :=
        Bool.eq_false_iff.mpr (fun h => hp (hiff.mp h))
      simp only [setPermissionRoute, hfind, hnv, Bool.false_eq_true, if_false]
      exact ⟨fun h => Except.noConfusion h, fun h => absurd h hp⟩
  · intro hperm
    subst hperm
    have hnv : membersValid (setPermission e uid "owner").members = false :=
      Bool.eq_false_iff.mpr (fun h => by exact absurd (hiff.mp h) (by decide))
    simp only [setPermissionRoute, hfind, hnv, Bool.false_eq_true, if_false]

/-- Witness for C2's amended statement: on the stored sample event the
route's success is equivalent to the requested value lying in the enum. -/
theorem C2_amended_witness :
    sampleStoredEvent.isActive = true ∧
    membersValid sampleStoredEvent.members = true ∧
    sampleStoredEvent.isMember "bob" = true ∧
    ((setPermissionRoute [sampleStoredEvent] sampleStoredEvent.id "bob"
        "collaborator").1 =
        Except.ok (setPermission sampleStoredEvent "bob" "collaborator") ↔
      permissionsEnum.contains "collaborator" = true) :=
  ⟨rfl, by decide, by decide,
   (C2_amended_route_authorizes_nothing sampleStoredEvent "bob" "collaborator"
      rfl (by decide) (by decide)).1⟩

/-- Every candidate the generator draws is an 8-character string over the
36-symbol alphabet. -/
theorem candidateCode_shape (rand : Nat → Fin 36) (i : Nat) :
    (candidateCode rand i).length = 8 ∧
    ∀ c ∈ (candidateCode rand i).data, c ∈ inviteChars := by
  constructor
  · simp [candidateCode, generateInviteCode, String.length]
  · intro c hc
    have hc' : c ∈ (List.range 8).map
        (fun j => inviteChars.getD (rand (8 * i + j)) 'A') := hc
    rw [List.mem_map] at hc'
    obtain ⟨j, _, rfl⟩ := hc'
    have hlt : ((rand (8 * i + j)) : Nat) < inviteChars.length := by
      have h36 : inviteChars.length = 36 := rfl
      rw [h36]
      exact (rand (8 * i + j)).isLt
    rw [List.getD_eq_getElem inviteChars 'A' hlt]
    exact List.getElem_mem hlt

/-- A code the pre-save loop settles on collides with no stored event
(whatever its `isActive`) and is one of the generator's candidates. -/
theorem findUniqueCode_spec (store : List Event) (rand : Nat → Fin 36) :
    ∀ (fuel i : Nat) (c : String),
      findUniqueCode store rand fuel i = some c →
      codeTaken store c = false ∧ ∃ j, c = candidateCode rand j := by
  intro fuel
  induction fuel with
  | zero => intro i c h; cases h
  | succ n ih =>
      intro i c h
      by_cases ht : codeTaken store (candidateCode rand i) = true
      · rw [findUniqueCode, if_pos ht] at h
        exact ih (i + 1) c h
      · rw [findUniqueCode, if_neg ht] at h
        cases h
        exact ⟨Bool.eq_false_iff.mpr ht, i, rfl⟩

/-- C5: each generated candidate is 8 characters over `[A-Z0-9]`; when the
pre-save hook runs on a new event without a code, the code it assigns
matches no stored event — active or soft-deleted alike, since the probe
filters on `inviteCode` only — and has the generated shape; and when the
document is not new or already carries a code, the hook leaves the invite
code exactly as it was (never regenerated). -/
theorem C5_invite_code_unique_shape :
    (∀ (rand : Nat → Fin 36) (i : Nat),
      (candidateCode rand i).length = 8 ∧
      ∀ c ∈ (candidateCode rand i).data, c ∈ inviteChars) ∧
    (∀ (store : List Event) (e : Event) (rand : Nat → Fin 36)
      (fuel now : Nat) (e' : Event),
      e.inviteCode = none →
      preSave store e true rand fuel now = some e' →
      ∃ c, e'.inviteCode = some c ∧
        codeTaken store c = false ∧
        (∀ ev ∈ store, ev.inviteCode ≠ some c) ∧
        c.length = 8 ∧ (∀ ch ∈ c.data, ch ∈ inviteChars)) ∧
    (∀ (store : List Event) (e : Event) (isNew : Bool) (rand : Nat → Fin 36)
      (fuel now : Nat) (e' : Event),
      (isNew = false ∨ e.inviteCode ≠ none) →
      preSave store e isNew rand fuel now = some e' →
      e'.inviteCode = e.inviteCode) := by
  refine ⟨candidateCode_shape, ?_, ?_⟩
  · intro store e rand fuel now e' hcode h
    rw [preSave] at h
    have hcond : (true && (e.inviteCode == none)) = true := by
      rw [hcode]; rfl
    rw [if_pos hcond] at h
    cases hfc : findUniqueCode store rand fuel 0 with
    | none => rw [hfc] at h; cases h
    | some c =>
        rw [hfc] at h
        cases h
        obtain ⟨htaken, j, hj⟩ := findUniqueCode_spec store rand fuel 0 c hfc
        refine ⟨c, rfl, htaken, ?_, ?_, ?_⟩
        · intro ev hev heq
          have : codeTaken store c = true := by
            simp only [codeTaken, List.any_eq_true]
            exact ⟨ev, hev, by simp [heq]⟩
          rw [this] at htaken
          cases htaken
        · rw [hj]; exact (candidateCode_shape rand j).1
        · rw [hj]; exact (candidateCode_shape rand j).2
  · intro store e isNew rand fuel now e' hnot h
    have hcond : (isNew && e.inviteCode == none) = false := by
      rcases hnot with h1 | h1
      · simp [h1]
      · simp [Option.isNone_iff_eq_none, h1]
    rw [preSave, hcond] at h
    simp only [Bool.false_eq_true, if_false] at h
    cases h
    rfl

/-- The event the pre-save hook produces from the created sample event under
the all-zero random stream. -/
def sampleAfterPreSave : Event :=
  { sampleCreated with inviteCode := some "AAAAAAAA", updatedAt := 0 }

/-- Witness for C5: pre-saving a freshly created event against a store that
already holds the stored sample event assigns a fresh 8-character code from
the alphabet (the all-zero random stream yields `"AAAAAAAA"`). -/
theorem C5_witness :
    ∃ c, sampleAfterPreSave.inviteCode = some c ∧
      codeTaken [sampleStoredEvent] c = false ∧
      (∀ ev ∈ [sampleStoredEvent], ev.inviteCode ≠ some c) ∧
      c.length = 8 ∧ (∀ ch ∈ c.data, ch ∈ inviteChars) :=
  C5_invite_code_unique_shape.2.1 [sampleStoredEvent] sampleCreated
    (fun _ => 0) 1 0 sampleAfterPreSave rfl (by decide)

/-- Writing a document back under an id that occurs in the store makes the
unfiltered id lookup return exactly the written document. -/
theorem findById_saveToStore_of_mem (store : List Event) (e e' : Event)
    (he : e ∈ store) (hid : e'.id = e.id) :
    findById (saveToStore store e') e.id = some e' := by
  induction store with
  | nil => cases he
  | cons x xs ih =>
      by_cases hx : (x.id == e'.id) = true
      · have hxid : x.id = e'.id := by simpa using hx
        simp only [saveToStore, List.map_cons, findById, List.find?_cons, hx,
          if_true]
        have : (e'.id == e.id) = true := by simp [hid]
        simp [this]
      · have hxf : (x.id == e'.id) = false := by
          simpa using hx
        have hxid : x.id ≠ e'.id := by simpa using hx
        have hxe : e ≠ x := by
          intro hcontr
          apply hxid
          rw [← hcontr, hid]
        have hexs : e ∈ xs := by
          cases List.mem_cons.mp he with
          | inl h => exact absurd h.symm (fun h => hxe h.symm)
          | inr h => exact h
        have hpredx : (x.id == e.id) = false := by
          rw [hid] at hxid
          simp [hxid]
        simp only [saveToStore, List.map_cons, findById, List.find?_cons, hxf,
          Bool.false_eq_true, if_false, hpredx]
        simpa [findById, saveToStore] using ih hexs

/-- C7: soft delete flips `isActive` to `false` and nothing else — every
embedded collection, the settings, the seating and the invite code survive;
afterwards the event is invisible to the join-by-code lookup and to every
member-scoped detail or list query, while the unfiltered store lookup by id
still returns the whole document. -/
theorem C7_soft_delete_frame_and_exclusion :
    ∀ (store : List Event) (eventId uid : String) (e e' : Event),
      findCreatorEvent store eventId uid = some e →
      e' = { e with isActive := false } →
      softDeleteRoute store eventId uid = (Except.ok e', saveToStore store e') ∧
      e'.members = e.members ∧ e'.guests = e.guests ∧
      e'.expenses = e.expenses ∧ e'.settings = e.settings ∧
      e'.seating = e.seating ∧ e'.inviteCode = e.inviteCode ∧
      e'.isActive = false ∧
      (∀ c, findByInviteCode (saveToStore store e') c ≠ some e') ∧
      (∀ u, findMemberEvent (saveToStore store e') eventId u = none) ∧
      (∀ u, e' ∉ myEvents (saveToStore store e') u) ∧
      findById (saveToStore store e') eventId = some e' := by
  intro store eventId uid e e' hfind he'
  have hpred := List.find?_some hfind
  have hid : e.id = eventId := by
    simp only [Bool.and_eq_true, beq_iff_eq] at hpred
    exact hpred.1.1
  have hmem : e ∈ store := List.mem_of_find?_eq_some hfind
  have hinact : e'.isActive = false := by rw [he']
  have he'id : e'.id = e.id := by rw [he']
  refine ⟨by rw [he']; simp [softDeleteRoute, hfind], by rw [he'],
    by rw [he'], by rw [he'], by rw [he'], by rw [he'], by rw [he'], hinact,
    ?_, ?_, ?_, ?_⟩
  · intro c hcontr
    have := List.find?_some hcontr
    simp [hinact] at this
  · intro u
    rw [findMemberEvent, List.find?_eq_none]
    intro x hx
    rw [saveToStore, List.mem_map] at hx
    obtain ⟨ev, _, rfl⟩ := hx
    by_cases hc : (ev.id == e'.id) = true
    · simp only [hc, if_true]
      simp [hinact]
    · have hcf : (ev.id == e'.id) = false := by simpa using hc
      have hne : ev.id ≠ eventId := by
        rw [← hid, ← he'id]
        simpa using hc
      simp [hcf, hne]
  · intro u hcontr
    have := (List.mem_filter.mp hcontr).2
    simp [hinact] at this
  · rw [← hid]
    exact findById_saveToStore_of_mem store e e' hmem he'id

/-- Witness for C7: soft-deleting the stored sample event as its creator
succeeds and the inactive copy is still found by the unfiltered id
lookup. -/
theorem C7_witness :
    softDeleteRoute [sampleStoredEvent] "E1" "alice" =
      (Except.ok ({ sampleStoredEvent with isActive := false }),
       saveToStore [sampleStoredEvent]
         ({ sampleStoredEvent with isActive := false })) ∧
    findById
      (saveToStore [sampleStoredEvent]
        ({ sampleStoredEvent with isActive := false })) "E1" =
      some ({ sampleStoredEvent with isActive := false }) := by
  have h := C7_soft_delete_frame_and_exclusion [sampleStoredEvent] "E1"
    "alice" sampleStoredEvent ({ sampleStoredEvent with isActive := false })
    (by decide) rfl
  exact ⟨h.1, h.2.2.2.2.2.2.2.2.2.2.2⟩

/-- C8: when the supplied guest index does not parse to a position inside
the guests list (no digits, negative, or at least the length), both the
update and the delete handler answer the invalid-index error and neither
touches the event or the store; on a valid index, the update rewrites
exactly the guest at that position (same length, every other position
untouched, members untouched) and the delete removes exactly that guest,
keeping the others in order. -/
theorem C8_guest_index_addressing :
    ∀ (store : List Event) (eventId uid idxStr : String) (u : GuestUpdates)
      (now : Nat) (e : Event),
      findMemberEvent store eventId uid = some e →
      (badGuestIndex idxStr e.guests.length = true →
        updateGuestRoute store eventId uid idxStr u now =
          (Except.error "Invalid guest index", store) ∧
        deleteGuestRoute store eventId uid idxStr =
          (Except.error "Invalid guest index", store)) ∧
      (∀ i : Int, parseIntJS idxStr = some i → 0 ≤ i →
        i < (e.guests.length : Int) →
        (∃ e₁,
          updateGuestRoute store eventId uid idxStr u now =
            (Except.ok e₁, saveToStore store e₁) ∧
          e₁.guests.length = e.guests.length ∧
          e₁.guests[i.toNat]? =
            some (applyGuestUpdates (e.guests.getD i.toNat default) u now) ∧
          (∀ j, j ≠ i.toNat → e₁.guests[j]? = e.guests[j]?) ∧
          e₁.members = e.members) ∧
        (∃ e₂,
          deleteGuestRoute store eventId uid idxStr =
            (Except.ok e₂, saveToStore store e₂) ∧
          e₂.guests = e.guests.take i.toNat ++ e.guests.drop (i.toNat + 1) ∧
          e₂.guests.length + 1 = e.guests.length)) := by
  intro store eventId uid idxStr u now e hfind
  constructor
  · intro hbad
    cases hp : parseIntJS idxStr with
    | none =>
        constructor <;> simp [updateGuestRoute, deleteGuestRoute, hfind, hp]
    | some i =>
        rw [badGuestIndex, hp] at hbad
        simp only [decide_eq_true_eq, Bool.or_eq_true] at hbad
        constructor <;>
          simp [updateGuestRoute, deleteGuestRoute, hfind, hp] <;> omega
  · intro i hp h0 hlt
    have h1 : ¬ (i < 0) := by omega
    have h2 : ¬ ((e.guests.length : Int) ≤ i) := by omega
    have hbadf : (decide (i < 0) || decide ((e.guests.length : Int) ≤ i))
        = false := by simp [h1, h2]
    have hn : i.toNat < e.guests.length := by omega
    constructor
    · refine ⟨updatedGuestEvent e i.toNat u now, ?_, ?_, ?_, ?_, rfl⟩
      · simp [updateGuestRoute, hfind, hp, hbadf]
      · simp [updatedGuestEvent]
      · exact List.getElem?_set_eq_of_lt _ hn
      · intro j hj
        exact List.getElem?_set_ne (Ne.symm hj)
    · refine ⟨erasedGuestEvent e i.toNat, ?_, ?_, ?_⟩
      · simp [deleteGuestRoute, hfind, hp, hbadf]
      · exact List.eraseIdx_eq_take_drop_succ e.guests i.toNat
      · exact List.length_eraseIdx_add_one hn

/-- A guest-update request body with no field supplied. -/
def noGuestUpdates : GuestUpdates :=
  { name := none, relation := none, dietary := none, rsvp := none,
    email := none, phone := none }

/-- The stored sample event with two guests, for exercising the
index-addressed guest handlers. -/
def sampleWithGuests : Event :=
  { sampleStoredEvent with guests :=
      [{ name := "Carol", relation := "friend", dietary := "", rsvp := "Pending",
         email := "", phone := "", createdBy := "alice", createdAt := 0,
         updatedAt := 0 },
       { name := "Dave", relation := "family", dietary := "",
         rsvp := "Attending", email := "", phone := "", createdBy := "alice",
         createdAt := 0, updatedAt := 0 }] }

/-- Witness for C8: on the two-guest sample event, index `"5"` is rejected
with the event untouched, while index `"1"` updates exactly the second
guest. -/
theorem C8_witness :
    findMemberEvent [sampleWithGuests] "E1" "bob" = some sampleWithGuests ∧
    updateGuestRoute [sampleWithGuests] "E1" "bob" "5" noGuestUpdates 9 =
      (Except.error "Invalid guest index", [sampleWithGuests]) ∧
    ∃ e₁,
      updateGuestRoute [sampleWithGuests] "E1" "bob" "1" noGuestUpdates 9 =
        (Except.ok e₁, saveToStore [sampleWithGuests] e₁) ∧
      e₁.guests.length = sampleWithGuests.guests.length ∧
      e₁.guests[(1 : Int).toNat]? =
        some (applyGuestUpdates
          (sampleWithGuests.guests.getD (1 : Int).toNat default)
          noGuestUpdates 9) ∧
      (∀ j, j ≠ (1 : Int).toNat →
        e₁.guests[j]? = sampleWithGuests.guests[j]?) ∧
      e₁.members = sampleWithGuests.members := by
  have hbad := ((C8_guest_index_addressing [sampleWithGuests] "E1" "bob" "5"
    noGuestUpdates 9 sampleWithGuests (by decide)).1 (by decide)).1
  have hok := ((C8_guest_index_addressing [sampleWithGuests] "E1" "bob" "1"
    noGuestUpdates 9 sampleWithGuests (by decide)).2 1 (by decide) (by decide)
    (by decide)).1
  exact ⟨by decide, hbad, hok⟩

end WeddingBackend
